import Mathlib

/-!
Verification of the turbo-lights repository core: the zone-to-color mapping
engine (`src/color_setting.py`) and the sensor-arbitration logic of the
`Monitor` class (`src/led_control.py`).

Conventions of the embedding:
* Python `int` values are `ℤ`; Python real-valued division (`/` on ints,
  producing a float) is modelled as exact division in `ℚ`, and `math.floor`
  as `Int.floor`.
* A Python `dict` built by successive `update` calls is modelled as the list
  of its entries in insertion order; lookup takes the latest binding
  (`dlookup`), and a missing key (`KeyError`) is `none`.
* A Python function that can raise is modelled in `Except String`; the error
  string names the Python exception class.
* Timestamps (`datetime.now()`) are passed in explicitly as integers (seconds)
  by the caller of each handler.
-/

namespace TurboLights

/-- RGB color triple. -/
abbrev Color := ℕ × ℕ × ℕ

/-- Emission descriptor of the interpolated mapping:
`((countLow, colorLow), (countHigh, colorHigh))`. -/
abbrev Desc := (ℤ × Color) × (ℤ × Color)

/-- Default color used only to state `List.getD` results. -/
def defColor : Color := (0, 0, 0)

/-- The fixed eight-color palette hard-coded inside `get_zone_colormapping`
(src/color_setting.py lines 98-115). -/
def colormapping : List Color :=
  [(132, 132, 130), (0, 0, 255), (0, 204, 34), (255, 255, 0),
   (255, 128, 0), (255, 0, 0), (251, 3, 201), (255, 255, 255)]

/-- Python `range(a, b)` over integers. -/
def intRange (a b : ℤ) : List ℤ :=
  (List.range (b - a).toNat).map (fun k : ℕ => a + (k : ℤ))

/-- Python list indexing `palette[i]`; raises `IndexError` out of range. -/
def get_color (palette : List Color) (i : ℕ) : Except String Color :=
  match palette.get? i with
  | some c => Except.ok c
  | none => Except.error "IndexError"

/-- Python `int()` applied to an exact ratio: truncation toward zero. -/
def py_int (q : ℚ) : ℤ := if q < 0 then ⌈q⌉ else ⌊q⌋

/-- One entry of the interpolated dictionary (src/color_setting.py
lines 124-128): key `x` maps to
`((number_of_leds - floor((x - zones[i]) * led_step), colormapping[i]),
  (floor((x - zones[i]) * led_step), colormapping[i+1]))`
with `led_step = number_of_leds / (zones[i+1] - zones[i])`, a real-valued
ratio.  In exact arithmetic `floor((x - zones[i]) * (L / w))` is the integer
floor division `((x - zones[i]) * L).fdiv w` for every band width `w > 0`
(`band_desc_floor` below proves this against the `ℚ`-level floor); it is
written that way so the mapping is kernel-computable. -/
def band_desc (L zi w : ℤ) (cl ch : Color) (x : ℤ) : Desc :=
  ((L - ((x - zi) * L).fdiv w, cl),
   (((x - zi) * L).fdiv w, ch))

/-- The integer floor division in `band_desc` agrees with
`math.floor((x - zi) * led_step)` computed over `ℚ` whenever the band width
is positive — which holds for every band whose key range is non-empty. -/
theorem band_desc_floor (L zi w : ℤ) (hw : 0 < w) (cl ch : Color) (x : ℤ) :
    band_desc L zi w cl ch x =
      ((L - ⌊((x - zi : ℤ) : ℚ) * ((L : ℚ) / ((w : ℤ) : ℚ))⌋, cl),
       (⌊((x - zi : ℤ) : ℚ) * ((L : ℚ) / ((w : ℤ) : ℚ))⌋, ch)) := by
  have key : ⌊((x - zi : ℤ) : ℚ) * ((L : ℚ) / ((w : ℤ) : ℚ))⌋ =
      ((x - zi) * L).fdiv w := by
    have h1 : ((x - zi : ℤ) : ℚ) * ((L : ℚ) / ((w : ℤ) : ℚ)) =
        (((x - zi) * L : ℤ) : ℚ) / ((w.toNat : ℕ) : ℚ) := by
      have : ((w.toNat : ℕ) : ℚ) = ((w : ℤ) : ℚ) := by
        have : ((w.toNat : ℕ) : ℤ) = w := by omega
        exact_mod_cast congrArg (fun z : ℤ => (z : ℚ)) this
      rw [this]
      push_cast
      ring
    rw [h1, Rat.floor_intCast_div_natCast, Int.fdiv_eq_ediv _ (by omega)]
    congr 1
    omega
  rw [band_desc, key]

/-- The dict comprehension of one band (src/color_setting.py lines 124-128),
evaluated over the key list `range(zones[i], zones[i+1])`; palette indexing
errors propagate exactly when the key list is non-empty. -/
def band_entries (palette : List Color) (L zi w : ℤ) (i : ℕ) :
    List ℤ → Except String (List (ℤ × Desc))
  | [] => Except.ok []
  | x :: xs =>
    match get_color palette i with
    | Except.error e => Except.error e
    | Except.ok cl =>
      match get_color palette (i + 1) with
      | Except.error e => Except.error e
      | Except.ok ch =>
        match band_entries palette L zi w i xs with
        | Except.error e => Except.error e
        | Except.ok rest => Except.ok ((x, band_desc L zi w cl ch x) :: rest)

/-- One iteration of the loop over `zones[:-1]` (src/color_setting.py
lines 119-130): `led_step = number_of_leds / (zones[i+1] - zones[i])`
(a `ZeroDivisionError` when the band has zero width, raised before the
comprehension runs), then the band's dictionary. -/
def band_dict (palette : List Color) (L zi zs : ℤ) (i : ℕ) :
    Except String (List (ℤ × Desc)) :=
  if zs - zi = 0 then Except.error "ZeroDivisionError"
  else band_entries palette L zi (zs - zi) i (intRange zi zs)

/-- The full loop of `get_zone_colormapping`, walking consecutive boundary
pairs `(zones[i], zones[i+1])` with the running band index `i`; successive
bands are accumulated in insertion order (`color_zones.update(...)`). -/
def build_bands (palette : List Color) (L : ℤ) :
    List ℤ → ℕ → Except String (List (ℤ × Desc))
  | z1 :: z2 :: rest, i =>
    match band_dict palette L z1 z2 i with
    | Except.error e => Except.error e
    | Except.ok d =>
      match build_bands palette L (z2 :: rest) (i + 1) with
      | Except.error e => Except.error e
      | Except.ok ds => Except.ok (d ++ ds)
  | _, _ => Except.ok []

/-- `get_zone_colormapping` generalized over the palette (the source
hard-codes `colormapping`); the claims quantify over palettes of
sufficient length. -/
def build_color_zones (palette : List Color) (zones : List ℤ) (L : ℤ) :
    Except String (List (ℤ × Desc)) :=
  build_bands palette L zones 0

/-- `get_zone_colormapping(zones, number_of_leds)`
(src/color_setting.py lines 88-132), with its hard-coded palette. -/
def get_zone_colormapping (zones : List ℤ) (number_of_leds : ℤ) :
    Except String (List (ℤ × Desc)) :=
  build_color_zones colormapping zones number_of_leds

/-- Python dict lookup on the insertion-ordered entry list: the latest
binding of a key wins; a missing key (`KeyError`) is `none`. -/
def dlookup : List (ℤ × Desc) → ℤ → Option Desc
  | [], _ => none
  | (k, c) :: rest, q =>
    match dlookup rest q with
    | some r => some r
    | none => if q = k then some c else none

/-- Does an `Except` computation return normally? -/
def except_ok {ε α : Type} : Except ε α → Bool
  | Except.ok _ => true
  | Except.error _ => false

/-- Equality of `Except` results is decidable componentwise. -/
def exceptDecEq {ε α : Type} [DecidableEq ε] [DecidableEq α] :
    (x y : Except ε α) → Decidable (x = y)
  | Except.ok a, Except.ok b =>
    if h : a = b then isTrue (by rw [h])
    else isFalse (fun hc => h (Except.ok.inj hc))
  | Except.ok _, Except.error _ => isFalse (fun hc => Except.noConfusion hc)
  | Except.error _, Except.ok _ => isFalse (fun hc => Except.noConfusion hc)
  | Except.error e, Except.error f =>
    if h : e = f then isTrue (by rw [h])
    else isFalse (fun hc => h (Except.error.inj hc))

instance {ε α : Type} [DecidableEq ε] [DecidableEq α] : DecidableEq (Except ε α) :=
  exceptDecEq

instance : DecidableEq Desc := inferInstance

instance : DecidableEq (Option Desc) := inferInstance

instance : DecidableEq (ℤ × Desc) := inferInstance

instance : DecidableEq (List (ℤ × Desc)) := List.hasDecEq

/-! ## The `Monitor` arbiter (src/led_control.py lines 52-210) -/

/-- A successful call to the LED sink
(`LEDController.set_led_color_range(setting, flash)`). -/
structure Emission where
  setting : Desc
  flash : Bool
deriving DecidableEq

/-- The mutable fields of `Monitor` that the two data handlers read or write
(src/led_control.py lines 70-101).  The Python sentinel
`previous_color_value = (1000, 1000, 1000)` is a 3-tuple and therefore
unequal to every descriptor the mapping can produce; it is modelled as
`none`. -/
structure MonitorState where
  power_last_update : Option ℤ
  hr_last_update : Option ℤ
  power : Bool
  previous_color_value : Option Desc
  counter : ℕ
  previous_power_values : List ℤ
  time_delay : ℤ
  colormapping_power : List (ℤ × Desc)
  colormapping_hr : List (ℤ × Desc)
deriving DecidableEq

/-- State built by `Monitor.__init__` (src/led_control.py lines 61-101):
timestamps `None`, `power = True`, sentinel previous color, counter 0, and a
rolling store of `number_measurements_to_average` zeros. -/
def monitor_init (time_delay : ℤ) (k : ℕ)
    (cmp cmh : List (ℤ × Desc)) : MonitorState :=
  { power_last_update := none
    hr_last_update := none
    power := true
    previous_color_value := none
    counter := 0
    previous_power_values := List.replicate k 0
    time_delay := time_delay
    colormapping_power := cmp
    colormapping_hr := cmh }

/-- Lines 173-174: `del self.previous_power_values[0]` followed by
`append(new_power_value)`. -/
def push_power_value (buf : List ℤ) (v : ℤ) : List ℤ := buf.tail ++ [v]

/-- Line 177: `int(sum(self.previous_power_values) / len(self.previous_power_values))`.
Python `int()` truncates the exact quotient toward zero, which is `Int.tdiv`
(`rolling_average_py_int` below proves this against the `ℚ`-level `py_int`);
it is written that way so the arbiter is kernel-computable. -/
def rolling_average (buf : List ℤ) : ℤ :=
  buf.sum.tdiv (buf.length : ℤ)

/-- `rolling_average` agrees with `int()` applied to the exact rational
quotient, for every non-empty buffer. -/
theorem rolling_average_py_int (buf : List ℤ) (hb : buf ≠ []) :
    rolling_average buf = py_int ((buf.sum : ℚ) / (buf.length : ℚ)) := by
  have hlen : 0 < buf.length := List.length_pos.mpr hb
  rw [rolling_average, py_int]
  rcases le_or_lt 0 buf.sum with hs | hs
  · have hnn : (0 : ℚ) ≤ (buf.sum : ℚ) / (buf.length : ℚ) := by
      apply div_nonneg
      · exact_mod_cast hs
      · positivity
    rw [if_neg (not_lt.mpr hnn)]
    rw [Rat.floor_intCast_div_natCast buf.sum buf.length]
    exact Int.tdiv_eq_ediv hs (by exact_mod_cast Nat.zero_le _)
  · rw [if_pos (by
      apply div_neg_of_neg_of_pos
      · exact_mod_cast hs
      · exact_mod_cast hlen)]
    have hceil : (⌈(buf.sum : ℚ) / (buf.length : ℚ)⌉ : ℤ) =
        -⌊((-buf.sum : ℤ) : ℚ) / ((buf.length : ℕ) : ℚ)⌋ := by
      have h2 : ((-buf.sum : ℤ) : ℚ) / ((buf.length : ℕ) : ℚ) =
          -((buf.sum : ℚ) / (buf.length : ℚ)) := by
        push_cast
        ring
      rw [h2, Int.floor_neg, neg_neg]
    rw [hceil, Rat.floor_intCast_div_natCast]
    have : buf.sum.tdiv (buf.length : ℤ) = -((-buf.sum).tdiv (buf.length : ℤ)) := by
      rw [Int.neg_tdiv, neg_neg]
    rw [this, Int.tdiv_eq_ediv (by omega) (by exact_mod_cast Nat.zero_le _)]

/-- `Monitor.on_power_data` (src/led_control.py lines 162-193).  Result is
(state after the call, successful LED-sink calls, whether the handler raised).
Raising points, in program order:
* `del` on an empty rolling store raises `IndexError` (timestamp and counter
  already updated);
* the dictionary lookup raises `KeyError` on a miss (timestamp, counter and
  rolling store already updated);
* in the hand-off branch (`not self.power`),
  `set_led_color_range(color=new_color, flash=True)` passes the keyword
  `color` to a parameter named `setting`, a `TypeError`, after
  `self.power = True` has run and before `previous_color_value` is assigned. -/
def on_power_data (now v : ℤ) (s : MonitorState) :
    MonitorState × List Emission × Bool :=
  let s1 := { s with power_last_update := some now, counter := s.counter + 1 }
  match s1.previous_power_values with
  | [] => (s1, [], true)
  | _ :: _ =>
    let s2 := { s1 with
      previous_power_values := push_power_value s1.previous_power_values v }
    let average_power := rolling_average s2.previous_power_values
    match dlookup s2.colormapping_power average_power with
    | none => (s2, [], true)
    | some new_color =>
      if s2.power = false then
        ({ s2 with power := true }, [], true)
      else
        if some new_color ≠ s2.previous_color_value then
          ({ s2 with previous_color_value := some new_color, counter := 0 },
           [⟨new_color, false⟩], false)
        else
          (s2, [], false)

/-- `Monitor.on_hr_data` (src/led_control.py lines 195-210).  Raising points,
in program order:
* the dictionary lookup raises `KeyError` on a miss, before any field is
  written;
* with `self.power` set and no previous power timestamp,
  `hr_last_update - None` raises `TypeError`;
* in the transfer branch,
  `set_led_color_range(color=color, flash=True)` passes the keyword `color`
  to a parameter named `setting`, a `TypeError`, so `self.power = False` on
  the following line never runs;
* in the `else` branch, `self.update_led(color=color)` calls the
  `LEDController` instance itself, which is not callable: `TypeError`. -/
def on_hr_data (now data_value : ℤ) (s : MonitorState) :
    MonitorState × List Emission × Bool :=
  match dlookup s.colormapping_hr data_value with
  | none => (s, [], true)
  | some _c =>
    let s1 := { s with hr_last_update := some now }
    if s1.power then
      match s1.power_last_update with
      | none => (s1, [], true)
      | some plu =>
        if now - plu > s1.time_delay then (s1, [], true)
        else (s1, [], false)
    else (s1, [], true)

/-! ## Basic lemmas about the mapping construction -/

theorem mem_intRange {a b v : ℤ} : v ∈ intRange a b ↔ a ≤ v ∧ v < b := by
  unfold intRange
  rw [List.mem_map]
  constructor
  · rintro ⟨k, hk, rfl⟩
    rw [List.mem_range] at hk
    omega
  · intro h
    refine ⟨(v - a).toNat, ?_, ?_⟩
    · rw [List.mem_range]
      omega
    · omega

theorem get_color_ok {palette : List Color} {i : ℕ} (h : i < palette.length) :
    get_color palette i = Except.ok (palette.getD i defColor) := by
  unfold get_color
  cases hg : palette.get? i with
  | none =>
    rw [List.get?_eq_none] at hg
    omega
  | some c =>
    have hg' : palette[i]? = some c := by
      rw [← List.get?_eq_getElem?]
      exact hg
    simp [List.getD_eq_getElem?_getD, hg']

theorem get_color_err {palette : List Color} {i : ℕ} (h : palette.length ≤ i) :
    get_color palette i = Except.error "IndexError" := by
  unfold get_color
  rw [List.get?_eq_none.mpr h]

theorem band_entries_ok {palette : List Color} {L zi w : ℤ} {i : ℕ}
    (h : i + 1 < palette.length) (l : List ℤ) :
    band_entries palette L zi w i l =
      Except.ok (l.map fun x =>
        (x, band_desc L zi w (palette.getD i defColor)
              (palette.getD (i + 1) defColor) x)) := by
  induction l with
  | nil => simp [band_entries]
  | cons x xs ih =>
    rw [band_entries, get_color_ok (by omega : i < palette.length), get_color_ok h, ih]
    simp

theorem band_dict_ok {palette : List Color} {L zi zs : ℤ} {i : ℕ}
    (hlt : zi < zs) (hp : i + 1 < palette.length) :
    band_dict palette L zi zs i =
      Except.ok ((intRange zi zs).map fun x =>
        (x, band_desc L zi (zs - zi)
              (palette.getD i defColor) (palette.getD (i + 1) defColor) x)) := by
  unfold band_dict
  rw [if_neg (by omega), band_entries_ok hp]

theorem dlookup_map (f : ℤ → Desc) (l : List ℤ) (q : ℤ) :
    dlookup (l.map fun x => (x, f x)) q = if q ∈ l then some (f q) else none := by
  induction l with
  | nil => simp [dlookup]
  | cons x xs ih =>
    simp only [List.map_cons, dlookup, ih]
    by_cases hq : q ∈ xs
    · simp [hq]
    · by_cases hx : q = x
      · subst hx
        simp [hq]
      · simp [hq, hx]

theorem dlookup_append (d1 d2 : List (ℤ × Desc)) (q : ℤ) :
    dlookup (d1 ++ d2) q =
      match dlookup d2 q with
      | some r => some r
      | none => dlookup d1 q := by
  induction d1 with
  | nil =>
    cases h : dlookup d2 q <;> simp [dlookup, h]
  | cons p rest ih =>
    obtain ⟨k, c⟩ := p
    show (match dlookup (rest ++ d2) q with
          | some r => some r
          | none => if q = k then some c else none) = _
    rw [ih]
    cases h : dlookup d2 q <;> cases h2 : dlookup rest q <;> simp [dlookup, h, h2]

theorem dlookup_mem : ∀ (d : List (ℤ × Desc)) (q : ℤ) (c : Desc),
    dlookup d q = some c → (q, c) ∈ d := by
  intro d
  induction d with
  | nil => intro q c h; simp [dlookup] at h
  | cons p rest ih =>
    intro q c h
    obtain ⟨k, v⟩ := p
    rw [dlookup] at h
    cases h2 : dlookup rest q with
    | some r =>
      rw [h2] at h
      simp only [Option.some.injEq] at h
      subst h
      exact List.mem_cons_of_mem _ (ih q r h2)
    | none =>
      rw [h2] at h
      simp only at h
      by_cases hk : q = k
      · rw [if_pos hk] at h
        simp only [Option.some.injEq] at h
        subst hk
        subst h
        exact List.mem_cons_self _ _
      · rw [if_neg hk] at h
        exact absurd h (by simp)

/-! ## Ordering facts about strictly increasing boundary lists -/

theorem chain_head_le_last : ∀ (z : ℤ) (zs : List ℤ),
    List.Chain' (· < ·) (z :: zs) →
    z ≤ (z :: zs).getD ((z :: zs).length - 1) 0 := by
  intro z zs
  induction zs generalizing z with
  | nil => intro _; simp
  | cons w ws ih =>
    intro h
    have h1 : z < w := (List.chain'_cons.mp h).1
    have h2 := ih w (List.chain'_cons.mp h).2
    simp only [List.length_cons, Nat.add_sub_cancel, List.getD_cons_succ] at h2 ⊢
    omega

theorem chain_head_le_get : ∀ (zs : List ℤ) (j : ℕ) (a : ℤ),
    List.Chain' (· < ·) zs → zs.get? j = some a → zs.getD 0 0 ≤ a := by
  intro zs
  induction zs with
  | nil => intro j a _ h; simp [List.get?] at h
  | cons z tail ih =>
    intro j a hch hg
    cases j with
    | zero =>
      simp only [List.get?_cons_zero, Option.some.injEq] at hg
      simp [hg]
    | succ j' =>
      cases tail with
      | nil => simp [List.get?] at hg
      | cons w ws =>
        have h1 : z < w := (List.chain'_cons.mp hch).1
        have h2 := ih j' a (List.chain'_cons.mp hch).2
          (by simpa using hg)
        simp only [List.getD_cons_zero] at h2 ⊢
        omega

theorem chain_get_lt {zs : List ℤ} {j : ℕ} {a b : ℤ}
    (hch : List.Chain' (· < ·) zs)
    (ha : zs.get? j = some a) (hb : zs.get? (j + 1) = some b) : a < b := by
  have hj1 : j + 1 < zs.length := List.get?_eq_some.mp hb |>.1
  have := List.chain'_iff_get.mp hch j (by omega)
  rw [List.get?_eq_get (by omega : j < zs.length)] at ha
  rw [List.get?_eq_get hj1] at hb
  simp only [Option.some.injEq] at ha hb
  rw [ha, hb] at this
  exact this

/-! ## Structure of a successfully built mapping -/

theorem build_bands_cons_ok {palette : List Color} {L z1 z2 : ℤ} {rest : List ℤ}
    {i : ℕ} {d : List (ℤ × Desc)}
    (h : build_bands palette L (z1 :: z2 :: rest) i = Except.ok d) :
    ∃ bd ds, band_dict palette L z1 z2 i = Except.ok bd ∧
      build_bands palette L (z2 :: rest) (i + 1) = Except.ok ds ∧ d = bd ++ ds := by
  rw [build_bands] at h
  cases h1 : band_dict palette L z1 z2 i with
  | error e =>
    rw [h1] at h
    simp at h
  | ok bd =>
    rw [h1] at h
    cases h2 : build_bands palette L (z2 :: rest) (i + 1) with
    | error e =>
      rw [h2] at h
      simp at h
    | ok ds =>
      rw [h2] at h
      simp only [Except.ok.injEq] at h
      exact ⟨bd, ds, rfl, rfl, h.symm⟩

theorem build_bands_ok (palette : List Color) (L : ℤ) :
    ∀ (zones : List ℤ) (i : ℕ), List.Chain' (· < ·) zones →
      i + zones.length ≤ palette.length →
      ∃ d, build_bands palette L zones i = Except.ok d := by
  intro zones
  induction zones with
  | nil => intro i _ _; exact ⟨[], rfl⟩
  | cons z1 tail ih =>
    intro i hch hp
    cases tail with
    | nil => exact ⟨[], rfl⟩
    | cons z2 rest =>
      have h1 : z1 < z2 := (List.chain'_cons.mp hch).1
      have hch' := (List.chain'_cons.mp hch).2
      simp only [List.length_cons] at hp
      obtain ⟨ds, hds⟩ := ih (i + 1) hch' (by simp only [List.length_cons]; omega)
      simp only [build_bands, band_dict_ok h1 (by omega : i + 1 < palette.length), hds]
      exact ⟨_, rfl⟩

theorem build_bands_dom (palette : List Color) (L : ℤ) :
    ∀ (zones : List ℤ) (i : ℕ) (d : List (ℤ × Desc)), List.Chain' (· < ·) zones →
      i + zones.length ≤ palette.length →
      build_bands palette L zones i = Except.ok d →
      ∀ q : ℤ, (dlookup d q).isSome ↔
        (2 ≤ zones.length ∧ zones.getD 0 0 ≤ q ∧
          q < zones.getD (zones.length - 1) 0) := by
  intro zones
  induction zones with
  | nil =>
    intro i d _ _ hd q
    have hd0 : (Except.ok [] : Except String (List (ℤ × Desc))) = Except.ok d := hd
    simp only [Except.ok.injEq] at hd0
    subst hd0
    simp [dlookup]
  | cons z1 tail ih =>
    intro i d hch hp hd q
    cases tail with
    | nil =>
      have hd0 : (Except.ok [] : Except String (List (ℤ × Desc))) = Except.ok d := hd
      simp only [Except.ok.injEq] at hd0
      subst hd0
      simp [dlookup]
    | cons z2 rest =>
      obtain ⟨bd, ds, h1, h2, rfl⟩ := build_bands_cons_ok hd
      have hz12 : z1 < z2 := (List.chain'_cons.mp hch).1
      have hch' := (List.chain'_cons.mp hch).2
      simp only [List.length_cons] at hp
      rw [band_dict_ok hz12 (by omega)] at h1
      simp only [Except.ok.injEq] at h1
      subst h1
      have htail := ih (i + 1) ds hch' (by simp only [List.length_cons]; omega) h2 q
      have hM := chain_head_le_last z2 rest hch'
      rw [dlookup_append]
      cases hds : dlookup ds q with
      | some r =>
        rw [hds] at htail
        simp only [Option.isSome_some, true_iff] at htail
        simp only [Option.isSome_some, true_iff, List.length_cons, Nat.add_sub_cancel,
          List.getD_cons_succ, List.getD_cons_zero] at htail hM ⊢
        omega
      | none =>
        rw [hds] at htail
        rw [dlookup_map (fun x => band_desc L z1 (z2 - z1)
          (palette.getD i defColor) (palette.getD (i + 1) defColor) x) (intRange z1 z2) q]
        by_cases hq : q ∈ intRange z1 z2
        · rw [if_pos hq]
          rw [mem_intRange] at hq
          simp only [Option.isSome_some, true_iff, List.length_cons, Nat.add_sub_cancel,
            List.getD_cons_succ, List.getD_cons_zero] at hM ⊢
          omega
        · rw [if_neg hq]
          rw [mem_intRange] at hq
          simp only [Option.isSome_none, Bool.false_eq_true, false_iff] at htail ⊢
          cases rest with
          | nil =>
            simp only [List.length_cons, List.length_nil, Nat.add_sub_cancel,
              List.getD_cons_succ, List.getD_cons_zero] at htail hM ⊢
            omega
          | cons r rs =>
            simp only [List.length_cons, Nat.add_sub_cancel, List.getD_cons_succ,
              List.getD_cons_zero] at htail hM ⊢
            omega

theorem build_bands_at_band (palette : List Color) (L : ℤ) :
    ∀ (zones : List ℤ) (i j : ℕ) (a b q : ℤ) (d : List (ℤ × Desc)),
      List.Chain' (· < ·) zones →
      i + zones.length ≤ palette.length →
      build_bands palette L zones i = Except.ok d →
      zones.get? j = some a → zones.get? (j + 1) = some b →
      a ≤ q → q < b →
      dlookup d q = some (band_desc L a (b - a)
        (palette.getD (i + j) defColor) (palette.getD (i + j + 1) defColor) q) := by
  intro zones
  induction zones with
  | nil =>
    intro i j a b q d _ _ _ hj _ _ _
    simp at hj
  | cons z1 tail ih =>
    intro i j a b q d hch hp hd hj hj1 hq1 hq2
    cases tail with
    | nil =>
      cases j with
      | zero => simp at hj1
      | succ j' => simp at hj
    | cons z2 rest =>
      obtain ⟨bd, ds, h1, h2, rfl⟩ := build_bands_cons_ok hd
      have hz12 : z1 < z2 := (List.chain'_cons.mp hch).1
      have hch' := (List.chain'_cons.mp hch).2
      simp only [List.length_cons] at hp
      rw [band_dict_ok hz12 (by omega)] at h1
      simp only [Except.ok.injEq] at h1
      subst h1
      rw [dlookup_append]
      cases j with
      | zero =>
        simp only [List.get?_cons_zero, Option.some.injEq] at hj
        simp only [List.get?_cons_succ, List.get?_cons_zero, Option.some.injEq] at hj1
        subst hj
        subst hj1
        have hdom := build_bands_dom palette L (z2 :: rest) (i + 1) ds hch'
          (by simp only [List.length_cons]; omega) h2 q
        have hnone : dlookup ds q = none := by
          cases hds : dlookup ds q with
          | none => rfl
          | some r =>
            rw [hds] at hdom
            simp only [Option.isSome_some, true_iff, List.getD_cons_zero] at hdom
            omega
        rw [hnone]
        rw [dlookup_map (fun x => band_desc L z1 (z2 - z1)
          (palette.getD i defColor) (palette.getD (i + 1) defColor) x) (intRange z1 z2) q]
        rw [if_pos (mem_intRange.mpr ⟨hq1, hq2⟩)]
        simp
      | succ j' =>
        simp only [List.get?_cons_succ] at hj hj1
        have htl := ih (i + 1) j' a b q ds hch'
          (by simp only [List.length_cons]; omega) h2 hj hj1 hq1 hq2
        rw [show i + 1 + j' = i + (j' + 1) from by omega] at htl
        rw [htl]

theorem band_entries_counts {palette : List Color} {L zi w : ℤ} {i : ℕ} :
    ∀ (l : List ℤ) (res : List (ℤ × Desc)),
      band_entries palette L zi w i l = Except.ok res →
      ∀ p ∈ res, p.2.1.1 + p.2.2.1 = L := by
  intro l
  induction l with
  | nil =>
    intro res h p hp
    have h0 : (Except.ok [] : Except String (List (ℤ × Desc))) = Except.ok res := h
    simp only [Except.ok.injEq] at h0
    subst h0
    simp at hp
  | cons x xs ih =>
    intro res h p hp
    rw [band_entries] at h
    cases hc1 : get_color palette i with
    | error e => rw [hc1] at h; simp at h
    | ok cl =>
      rw [hc1] at h
      cases hc2 : get_color palette (i + 1) with
      | error e => rw [hc2] at h; simp at h
      | ok ch =>
        rw [hc2] at h
        cases hr : band_entries palette L zi w i xs with
        | error e => rw [hr] at h; simp at h
        | ok rest =>
          rw [hr] at h
          simp only [Except.ok.injEq] at h
          subst h
          rcases List.mem_cons.mp hp with h | h
          · subst h
            simp only [band_desc]
            omega
          · exact ih rest hr p h

theorem build_bands_counts (palette : List Color) (L : ℤ) :
    ∀ (zones : List ℤ) (i : ℕ) (d : List (ℤ × Desc)),
      build_bands palette L zones i = Except.ok d →
      ∀ p ∈ d, p.2.1.1 + p.2.2.1 = L := by
  intro zones
  induction zones with
  | nil =>
    intro i d h p hp
    have h0 : (Except.ok [] : Except String (List (ℤ × Desc))) = Except.ok d := h
    simp only [Except.ok.injEq] at h0
    subst h0
    simp at hp
  | cons z1 tail ih =>
    intro i d h p hp
    cases tail with
    | nil =>
      have h0 : (Except.ok [] : Except String (List (ℤ × Desc))) = Except.ok d := h
      simp only [Except.ok.injEq] at h0
      subst h0
      simp at hp
    | cons z2 rest =>
      obtain ⟨bd, ds, h1, h2, rfl⟩ := build_bands_cons_ok h
      rcases List.mem_append.mp hp with hm | hm
      · rw [band_dict] at h1
        by_cases hz : z2 - z1 = 0
        · rw [if_pos hz] at h1
          simp at h1
        · rw [if_neg hz] at h1
          exact band_entries_counts _ bd h1 p hm
      · exact ih (i + 1) ds h2 p hm

/-! ## Claims C1 and C2 -/

/-- Claim C1: for every strictly increasing integer zone sequence of length at
least 2 and a palette of sufficient length, the mapping built by
`get_zone_colormapping` is defined (lookup succeeds) exactly for the integers
`v` with `min(zones) ≤ v < max(zones)`, and lookup fails (`KeyError`, the
spec's MissError) for every other integer: no clamping, no wraparound. -/
theorem mapping_domain_c1 (palette : List Color) (zones : List ℤ) (L : ℤ)
    (hch : List.Chain' (· < ·) zones) (hlen : 2 ≤ zones.length)
    (hpal : zones.length ≤ palette.length) :
    ∃ d, build_color_zones palette zones L = Except.ok d ∧
      ∀ v : ℤ, (dlookup d v).isSome ↔
        (zones.getD 0 0 ≤ v ∧ v < zones.getD (zones.length - 1) 0) := by
  obtain ⟨d, hd⟩ := build_bands_ok palette L zones 0 hch (by omega)
  refine ⟨d, hd, fun v => ?_⟩
  rw [build_bands_dom palette L zones 0 d hch (by omega) hd v]
  constructor
  · rintro ⟨_, hv1, hv2⟩
    exact ⟨hv1, hv2⟩
  · intro ⟨hv1, hv2⟩
    exact ⟨hlen, hv1, hv2⟩

/-- Witness for C1: zones `[0, 2, 5]`, a palette of three colors, 4 LEDs. -/
theorem mapping_domain_c1_witness :
    List.Chain' (· < ·) [(0 : ℤ), 2, 5] ∧
      2 ≤ ([(0 : ℤ), 2, 5]).length ∧
      ([(0 : ℤ), 2, 5]).length ≤ ([(1, 1, 1), (2, 2, 2), (3, 3, 3)] : List Color).length ∧
      (∃ d, build_color_zones [(1, 1, 1), (2, 2, 2), (3, 3, 3)] [(0 : ℤ), 2, 5] 4 =
          Except.ok d ∧
        ∀ v : ℤ, (dlookup d v).isSome ↔
          (([(0 : ℤ), 2, 5]).getD 0 0 ≤ v ∧
            v < ([(0 : ℤ), 2, 5]).getD (([(0 : ℤ), 2, 5]).length - 1) 0)) :=
  ⟨by norm_num [List.chain'_cons, List.chain'_singleton], by decide, by decide,
    mapping_domain_c1 _ _ _ (by norm_num [List.chain'_cons, List.chain'_singleton])
      (by decide) (by decide)⟩

/-- Claim C2: for every strictly increasing zone sequence, sufficient palette
and LED count, every descriptor `((countLow, colorLow), (countHigh, colorHigh))`
held by the interpolated mapping satisfies `countLow + countHigh = totalLeds`. -/
theorem split_counts_sum_c2 (palette : List Color) (zones : List ℤ) (L : ℤ)
    (hch : List.Chain' (· < ·) zones) (hpal : zones.length ≤ palette.length) :
    ∃ d, build_color_zones palette zones L = Except.ok d ∧
      ∀ (v : ℤ) (dsc : Desc), dlookup d v = some dsc → dsc.1.1 + dsc.2.1 = L := by
  obtain ⟨d, hd⟩ := build_bands_ok palette L zones 0 hch (by omega)
  refine ⟨d, hd, fun v dsc hv => ?_⟩
  exact build_bands_counts palette L zones 0 d hd (v, dsc) (dlookup_mem d v dsc hv)

/-- Witness for C2 at zones `[0, 3, 6]`, three colors, 10 LEDs. -/
theorem split_counts_sum_c2_witness :
    List.Chain' (· < ·) [(0 : ℤ), 3, 6] ∧
      ([(0 : ℤ), 3, 6]).length ≤ ([(1, 1, 1), (2, 2, 2), (3, 3, 3)] : List Color).length ∧
      (∃ d, build_color_zones [(1, 1, 1), (2, 2, 2), (3, 3, 3)] [(0 : ℤ), 3, 6] 10 =
          Except.ok d ∧
        ∀ (v : ℤ) (dsc : Desc), dlookup d v = some dsc → dsc.1.1 + dsc.2.1 = 10) :=
  ⟨by norm_num [List.chain'_cons, List.chain'_singleton], by decide,
    split_counts_sum_c2 _ _ _ (by norm_num [List.chain'_cons, List.chain'_singleton])
      (by decide)⟩

/-! ## Claim C8: countHigh at and across a band -/

/-- Claim C8: within any single band `[zones[j], zones[j+1])` of an
interpolated mapping, `countHigh` is `0` at the band's lower edge and is
monotonically non-decreasing as the value increases across the band. -/
theorem band_counthigh_c8 (palette : List Color) (zones : List ℤ) (L : ℤ) (j : ℕ)
    (a b : ℤ) (d : List (ℤ × Desc))
    (hch : List.Chain' (· < ·) zones) (hpal : zones.length ≤ palette.length)
    (hL : 0 ≤ L)
    (hd : build_color_zones palette zones L = Except.ok d)
    (ha : zones.get? j = some a) (hb : zones.get? (j + 1) = some b) :
    (∀ da : Desc, dlookup d a = some da → da.2.1 = 0) ∧
    (∀ (v v' : ℤ) (dv dv' : Desc), a ≤ v → v ≤ v' → v' < b →
      dlookup d v = some dv → dlookup d v' = some dv' → dv.2.1 ≤ dv'.2.1) := by
  have hab : a < b := chain_get_lt hch ha hb
  have hj1 : j + 1 < zones.length := (List.get?_eq_some.mp hb).1
  constructor
  · intro da hda
    rw [build_bands_at_band palette L zones 0 j a b a d hch (by omega) hd ha hb
      le_rfl hab] at hda
    simp only [Option.some.injEq] at hda
    subst hda
    simp only [band_desc, sub_self, zero_mul, Int.zero_fdiv]
  · intro v v' dv dv' hv1 hv2 hv3 hdv hdv'
    rw [build_bands_at_band palette L zones 0 j a b v d hch (by omega) hd ha hb
      hv1 (by omega)] at hdv
    rw [build_bands_at_band palette L zones 0 j a b v' d hch (by omega) hd ha hb
      (by omega) hv3] at hdv'
    simp only [Option.some.injEq] at hdv hdv'
    subst hdv
    subst hdv'
    simp only [band_desc]
    rw [Int.fdiv_eq_ediv _ (by omega), Int.fdiv_eq_ediv _ (by omega)]
    apply Int.ediv_le_ediv (by omega)
    apply mul_le_mul_of_nonneg_right (by omega) hL

/-- Witness for C8: zones `[0, 2, 4]`, 3 LEDs, band 0 = `[0, 2)`. -/
theorem band_counthigh_c8_witness :
    List.Chain' (· < ·) [(0 : ℤ), 2, 4] ∧
      ([(0 : ℤ), 2, 4]).length ≤ ([(1, 1, 1), (2, 2, 2), (3, 3, 3)] : List Color).length ∧
      (0 : ℤ) ≤ 3 ∧
      build_color_zones [(1, 1, 1), (2, 2, 2), (3, 3, 3)] [(0 : ℤ), 2, 4] 3 =
        Except.ok
          [(0, ((3, (1, 1, 1)), (0, (2, 2, 2)))), (1, ((2, (1, 1, 1)), (1, (2, 2, 2)))),
           (2, ((3, (2, 2, 2)), (0, (3, 3, 3)))), (3, ((2, (2, 2, 2)), (1, (3, 3, 3))))] ∧
      ([(0 : ℤ), 2, 4]).get? 0 = some 0 ∧ ([(0 : ℤ), 2, 4]).get? 1 = some 2 ∧
      ((∀ da : Desc,
          dlookup
            [(0, ((3, (1, 1, 1)), (0, (2, 2, 2)))), (1, ((2, (1, 1, 1)), (1, (2, 2, 2)))),
             (2, ((3, (2, 2, 2)), (0, (3, 3, 3)))), (3, ((2, (2, 2, 2)), (1, (3, 3, 3))))]
            0 = some da → da.2.1 = 0) ∧
        (∀ (v v' : ℤ) (dv dv' : Desc), 0 ≤ v → v ≤ v' → v' < 2 →
          dlookup
            [(0, ((3, (1, 1, 1)), (0, (2, 2, 2)))), (1, ((2, (1, 1, 1)), (1, (2, 2, 2)))),
             (2, ((3, (2, 2, 2)), (0, (3, 3, 3)))), (3, ((2, (2, 2, 2)), (1, (3, 3, 3))))]
            v = some dv →
          dlookup
            [(0, ((3, (1, 1, 1)), (0, (2, 2, 2)))), (1, ((2, (1, 1, 1)), (1, (2, 2, 2)))),
             (2, ((3, (2, 2, 2)), (0, (3, 3, 3)))), (3, ((2, (2, 2, 2)), (1, (3, 3, 3))))]
            v' = some dv' → dv.2.1 ≤ dv'.2.1)) :=
  ⟨by norm_num [List.chain'_cons, List.chain'_singleton], by decide, by decide,
    by decide, by decide, by decide,
    band_counthigh_c8 [(1, 1, 1), (2, 2, 2), (3, 3, 3)] [(0 : ℤ), 2, 4] 3 0 0 2
      [(0, ((3, (1, 1, 1)), (0, (2, 2, 2)))), (1, ((2, (1, 1, 1)), (1, (2, 2, 2)))),
       (2, ((3, (2, 2, 2)), (0, (3, 3, 3)))), (3, ((2, (2, 2, 2)), (1, (3, 3, 3))))]
      (by norm_num [List.chain'_cons, List.chain'_singleton]) (by decide) (by decide)
      (by decide) (by decide) (by decide)⟩

/-! ## Claim C9: construction-time failure -/

theorem band_entries_err (palette : List Color) (L zi w : ℤ) {i : ℕ}
    (hp : palette.length ≤ i + 1) (x : ℤ) (xs : List ℤ) :
    ∃ e, band_entries palette L zi w i (x :: xs) = Except.error e := by
  rw [band_entries]
  by_cases hi : palette.length ≤ i
  · rw [get_color_err hi]
    exact ⟨_, rfl⟩
  · rw [get_color_ok (by omega), get_color_err hp]
    exact ⟨_, rfl⟩

theorem build_bands_err_of_adjacent_eq (palette : List Color) (L : ℤ) :
    ∀ (zones : List ℤ) (i j : ℕ) (a : ℤ),
      zones.get? j = some a → zones.get? (j + 1) = some a →
      ∃ e, build_bands palette L zones i = Except.error e := by
  intro zones
  induction zones with
  | nil => intro i j a hj _; simp at hj
  | cons z1 tail ih =>
    intro i j a hj hj1
    cases tail with
    | nil =>
      cases j with
      | zero => simp at hj1
      | succ j' => simp at hj
    | cons z2 rest =>
      cases j with
      | zero =>
        simp only [List.get?_cons_zero, Option.some.injEq] at hj
        simp only [List.get?_cons_succ, List.get?_cons_zero, Option.some.injEq] at hj1
        subst hj
        subst hj1
        refine ⟨"ZeroDivisionError", ?_⟩
        rw [build_bands, band_dict, if_pos (by omega)]
      | succ j' =>
        simp only [List.get?_cons_succ] at hj hj1
        obtain ⟨e, he⟩ := ih (i + 1) j' a hj hj1
        cases hbd : band_dict palette L z1 z2 i with
        | error e' => exact ⟨e', by rw [build_bands, hbd]⟩
        | ok bd => exact ⟨e, by rw [build_bands, hbd, he]⟩

theorem build_bands_err_of_short_palette (palette : List Color) (L : ℤ) :
    ∀ (zones : List ℤ) (i : ℕ),
      List.Chain' (· < ·) zones → 2 ≤ zones.length →
      palette.length < i + zones.length →
      ∃ e, build_bands palette L zones i = Except.error e := by
  intro zones
  induction zones with
  | nil => intro i _ h _; simp at h
  | cons z1 tail ih =>
    intro i hch hlen hp
    cases tail with
    | nil => simp at hlen
    | cons z2 rest =>
      have hz12 : z1 < z2 := (List.chain'_cons.mp hch).1
      have hch' := (List.chain'_cons.mp hch).2
      simp only [List.length_cons] at hp
      by_cases hshort : palette.length ≤ i + 1
      · have hne : intRange z1 z2 ≠ [] := by
          intro hnil
          have : z1 ∈ intRange z1 z2 := mem_intRange.mpr ⟨le_rfl, hz12⟩
          rw [hnil] at this
          simp at this
        obtain ⟨x, xs, hxr⟩ : ∃ x xs, intRange z1 z2 = x :: xs := by
          cases hxr : intRange z1 z2 with
          | nil => exact absurd hxr hne
          | cons x xs => exact ⟨x, xs, rfl⟩
        obtain ⟨e, he⟩ := band_entries_err palette L z1 (z2 - z1) hshort x xs
        refine ⟨e, ?_⟩
        rw [build_bands, band_dict, if_neg (by omega), hxr, he]
      · cases rest with
        | nil =>
          simp only [List.length_nil] at hp
          omega
        | cons r rs =>
          obtain ⟨e, he⟩ := ih (i + 1) hch'
            (by simp only [List.length_cons]; omega)
            (by simp only [List.length_cons] at *; omega)
          cases hbd : band_dict palette L z1 z2 i with
          | error e' => exact ⟨e', by rw [build_bands, hbd]⟩
          | ok bd => exact ⟨e, by rw [build_bands, hbd, he]⟩

/-- Counterexample to claim C9 as stated: `[0, 10, 5, 20]` is not strictly
increasing, yet `get_zone_colormapping` returns a mapping without raising
(the offending band `range(10, 5)` is empty, so nothing fails). -/
theorem build_failfast_c9_cex :
    ¬ List.Chain' (· < ·) [(0 : ℤ), 10, 5, 20] ∧
      except_ok (get_zone_colormapping [(0 : ℤ), 10, 5, 20] 30) = true :=
  ⟨by norm_num [List.chain'_cons, List.chain'_singleton], by decide⟩

/-- Claim C9 amended: construction does fail — with no partial mapping
returned — when some adjacent zone boundaries are equal (`ZeroDivisionError`)
or when the zones are strictly increasing (length at least 2) but the palette
is shorter than the zone list (`IndexError`).  A zone list that is merely
non-increasing (a strict decrease, no equal adjacent pair) can build
successfully, so the claim's blanket "not strictly increasing" fails. -/
theorem build_failfast_c9_amended (palette : List Color) (zones : List ℤ) (L : ℤ)
    (h : (∃ j a, zones.get? j = some a ∧ zones.get? (j + 1) = some a) ∨
      (List.Chain' (· < ·) zones ∧ 2 ≤ zones.length ∧
        palette.length < zones.length)) :
    ∃ e, build_color_zones palette zones L = Except.error e := by
  rcases h with ⟨j, a, hj, hj1⟩ | ⟨hch, hlen, hp⟩
  · exact build_bands_err_of_adjacent_eq palette L zones 0 j a hj hj1
  · exact build_bands_err_of_short_palette palette L zones 0 hch hlen (by omega)

/-- Witness for the amended C9: zones `[0, 7, 7, 9]` have an equal adjacent
pair, and construction with the source's palette raises. -/
theorem build_failfast_c9_amended_witness :
    ((∃ j a, ([(0 : ℤ), 7, 7, 9]).get? j = some a ∧
        ([(0 : ℤ), 7, 7, 9]).get? (j + 1) = some a) ∨
      (List.Chain' (· < ·) [(0 : ℤ), 7, 7, 9] ∧ 2 ≤ ([(0 : ℤ), 7, 7, 9]).length ∧
        colormapping.length < ([(0 : ℤ), 7, 7, 9]).length)) ∧
      ∃ e, build_color_zones colormapping [(0 : ℤ), 7, 7, 9] 30 = Except.error e :=
  ⟨Or.inl ⟨1, 7, by decide, by decide⟩,
    build_failfast_c9_amended _ _ _ (Or.inl ⟨1, 7, by decide, by decide⟩)⟩

/-! ## Arbiter step lemmas -/

theorem on_power_data_active_emit (s : MonitorState) (now v : ℤ) (c : Desc)
    (hpow : s.power = true) (hb : s.previous_power_values ≠ [])
    (hl : dlookup s.colormapping_power
      (rolling_average (push_power_value s.previous_power_values v)) = some c)
    (hne : some c ≠ s.previous_color_value) :
    on_power_data now v s =
      ({ s with
          power_last_update := some now
          counter := 0
          previous_power_values := push_power_value s.previous_power_values v
          previous_color_value := some c },
        [⟨c, false⟩], false) := by
  obtain ⟨a, l, hb'⟩ : ∃ a l, s.previous_power_values = a :: l := by
    cases hbb : s.previous_power_values with
    | nil => exact absurd hbb hb
    | cons a l => exact ⟨a, l, rfl⟩
  rw [hb'] at hl
  unfold on_power_data
  simp only [hb', hl, hpow]
  simp [hne]

theorem on_power_data_active_skip (s : MonitorState) (now v : ℤ) (c : Desc)
    (hpow : s.power = true) (hb : s.previous_power_values ≠ [])
    (hl : dlookup s.colormapping_power
      (rolling_average (push_power_value s.previous_power_values v)) = some c)
    (heq : some c = s.previous_color_value) :
    on_power_data now v s =
      ({ s with
          power_last_update := some now
          counter := s.counter + 1
          previous_power_values := push_power_value s.previous_power_values v },
        [], false) := by
  obtain ⟨a, l, hb'⟩ : ∃ a l, s.previous_power_values = a :: l := by
    cases hbb : s.previous_power_values with
    | nil => exact absurd hbb hb
    | cons a l => exact ⟨a, l, rfl⟩
  rw [hb'] at hl
  unfold on_power_data
  simp only [hb', hl, hpow]
  simp [heq.symm]

/-! ## Example states for the concrete arbiter scenarios -/

/-- A sample split descriptor. -/
def descA : Desc := ((3, (5, 5, 5)), (1, (6, 6, 6)))

/-- A second, different sample split descriptor. -/
def descB : Desc := ((2, (7, 7, 7)), (2, (8, 8, 8)))

/-- PowerActive state with `timeDelay = 5`, `lastPowerTimestamp = 0` and a
heart-rate mapping defined only at 60. -/
def c4_state : MonitorState :=
  { power_last_update := some 0, hr_last_update := none, power := true,
    previous_color_value := none, counter := 0, previous_power_values := [0],
    time_delay := 5, colormapping_power := [], colormapping_hr := [(60, descA)] }

/-- HeartRateActive state whose last emitted color differs from the mapped
color of the next reading. -/
def c7_state : MonitorState :=
  { power_last_update := some 0, hr_last_update := none, power := false,
    previous_color_value := some descB, counter := 0, previous_power_values := [0],
    time_delay := 5, colormapping_power := [], colormapping_hr := [(60, descA)] }

/-- State whose heart-rate mapping misses the value 99. -/
def c3h_state : MonitorState :=
  { power_last_update := some 0, hr_last_update := some 2, power := true,
    previous_color_value := some descA, counter := 3, previous_power_values := [0],
    time_delay := 5, colormapping_power := [(1, descA)], colormapping_hr := [(60, descA)] }

/-- State whose power mapping misses the smoothed value of the next reading. -/
def c3p_state : MonitorState :=
  { power_last_update := some 0, hr_last_update := some 2, power := true,
    previous_color_value := some descA, counter := 3, previous_power_values := [0],
    time_delay := 5, colormapping_power := [(1, descA)], colormapping_hr := [(60, descA)] }

/-- PowerActive state with a one-element rolling store and a power mapping
sending 1 to `descA` and 2 to `descB`. -/
def c5_state : MonitorState :=
  { power_last_update := some 0, hr_last_update := none, power := true,
    previous_color_value := none, counter := 0, previous_power_values := [0],
    time_delay := 5, colormapping_power := [(1, descA), (2, descB)],
    colormapping_hr := [] }

/-! ## Claim C3: out-of-domain readings -/

/-- Claim C3 amended: a heart-rate reading whose value misses the mapping is
dropped with the state fully unchanged and no emission (the lookup precedes
every write).  A power reading whose smoothed value misses the mapping
produces no emission and leaves `power`, `previous_color_value` and
`hr_last_update` unchanged, but `power_last_update`, `counter` and the
rolling store have already been updated when the `KeyError` aborts the
handler, so the state is not exactly as before. -/
theorem miss_drop_c3_amended :
    (∀ (s : MonitorState) (now v : ℤ),
      dlookup s.colormapping_hr v = none → on_hr_data now v s = (s, [], true)) ∧
    (∀ (s : MonitorState) (now v : ℤ), s.previous_power_values ≠ [] →
      dlookup s.colormapping_power
        (rolling_average (push_power_value s.previous_power_values v)) = none →
      on_power_data now v s =
        ({ s with
            power_last_update := some now
            counter := s.counter + 1
            previous_power_values := push_power_value s.previous_power_values v },
          [], true)) := by
  constructor
  · intro s now v h
    unfold on_hr_data
    rw [h]
  · intro s now v hb h
    obtain ⟨a, l, hb'⟩ : ∃ a l, s.previous_power_values = a :: l := by
      cases hbb : s.previous_power_values with
      | nil => exact absurd hbb hb
      | cons a l => exact ⟨a, l, rfl⟩
    rw [hb'] at h
    unfold on_power_data
    simp only [hb', h]

/-- Witness for the amended C3 at concrete missing readings. -/
theorem miss_drop_c3_amended_witness :
    (dlookup c3h_state.colormapping_hr 99 = none ∧
      on_hr_data 1 99 c3h_state = (c3h_state, [], true)) ∧
    (c3p_state.previous_power_values ≠ [] ∧
      dlookup c3p_state.colormapping_power
        (rolling_average (push_power_value c3p_state.previous_power_values 99)) = none ∧
      on_power_data 7 99 c3p_state =
        ({ c3p_state with
            power_last_update := some 7
            counter := c3p_state.counter + 1
            previous_power_values :=
              push_power_value c3p_state.previous_power_values 99 },
          [], true)) :=
  ⟨⟨by decide, miss_drop_c3_amended.1 c3h_state 1 99 (by decide)⟩,
   ⟨by decide, by decide, miss_drop_c3_amended.2 c3p_state 7 99 (by decide) (by decide)⟩⟩

/-- Counterexample to claim C3 as stated: on a power reading whose smoothed
value misses the mapping, `lastPowerTimestamp` (and the rolling store) have
changed, although no emission occurred. -/
theorem miss_drop_c3_cex :
    dlookup c3p_state.colormapping_power
      (rolling_average (push_power_value c3p_state.previous_power_values 99)) = none ∧
    (on_power_data 7 99 c3p_state).2.1 = ([] : List Emission) ∧
    c3p_state.power_last_update = some 0 ∧
    (on_power_data 7 99 c3p_state).1.power_last_update = some 7 ∧
    (on_power_data 7 99 c3p_state).1.previous_power_values ≠
      c3p_state.previous_power_values := by decide

/-! ## Claim C4: failover timing -/

/-- Claim C4 (code bug): with `timeDelay = 5`, state PowerActive and
`lastPowerTimestamp = 0`, a HeartRate reading with a valid color at time 3
(and even at time 5) causes no transition — the condition is strictly
`now - lastPowerTimestamp > timeDelay` — and at time 6 the condition holds
but the hand-off call `set_led_color_range(color=color, flash=True)` passes
keyword `color` to a parameter named `setting`: a `TypeError` aborts the
handler before `self.power = False`, so no transition to HeartRateActive and
no emission happen, where the claim (and spec) promise a flash emission and a
transition. -/
theorem failover_c4_bug :
    on_hr_data 3 60 c4_state = ({ c4_state with hr_last_update := some 3 }, [], false) ∧
    on_hr_data 5 60 c4_state = ({ c4_state with hr_last_update := some 5 }, [], false) ∧
    on_hr_data 6 60 c4_state = ({ c4_state with hr_last_update := some 6 }, [], true) ∧
    (on_hr_data 6 60 c4_state).1.power = true ∧
    (on_hr_data 6 60 c4_state).2.1 = ([] : List Emission) := by decide

/-! ## Claim C5: power-channel hysteresis -/

/-- Claim C5: in PowerActive, two consecutive power readings whose looked-up
colors are equal produce exactly one emission (by the first, which also
updates `lastEmittedColor`), and a third reading mapping to a different color
produces a second emission and updates `lastEmittedColor` again. -/
theorem power_hysteresis_c5 (s : MonitorState) (n1 n2 n3 v1 v2 v3 : ℤ) (c c' : Desc)
    (hpow : s.power = true)
    (hbuf : s.previous_power_values ≠ [])
    (hprev : s.previous_color_value ≠ some c)
    (hcc : c ≠ c')
    (h1 : dlookup s.colormapping_power
      (rolling_average (push_power_value s.previous_power_values v1)) = some c)
    (h2 : dlookup s.colormapping_power
      (rolling_average (push_power_value
        (push_power_value s.previous_power_values v1) v2)) = some c)
    (h3 : dlookup s.colormapping_power
      (rolling_average (push_power_value (push_power_value
        (push_power_value s.previous_power_values v1) v2) v3)) = some c') :
    on_power_data n1 v1 s =
      ({ s with
          power_last_update := some n1
          counter := 0
          previous_power_values := push_power_value s.previous_power_values v1
          previous_color_value := some c },
        [⟨c, false⟩], false) ∧
    on_power_data n2 v2 (on_power_data n1 v1 s).1 =
      ({ s with
          power_last_update := some n2
          counter := 1
          previous_power_values := push_power_value
            (push_power_value s.previous_power_values v1) v2
          previous_color_value := some c },
        [], false) ∧
    on_power_data n3 v3 (on_power_data n2 v2 (on_power_data n1 v1 s).1).1 =
      ({ s with
          power_last_update := some n3
          counter := 0
          previous_power_values := push_power_value (push_power_value
            (push_power_value s.previous_power_values v1) v2) v3
          previous_color_value := some c' },
        [⟨c', false⟩], false) := by
  have hprev' : some c ≠ s.previous_color_value := fun h => hprev h.symm
  have e1 := on_power_data_active_emit s n1 v1 c hpow hbuf h1 hprev'
  have hb1 : push_power_value s.previous_power_values v1 ≠ [] := by
    simp [push_power_value]
  refine ⟨e1, ?_, ?_⟩
  · rw [e1]
    exact on_power_data_active_skip _ n2 v2 c hpow hb1 h2 rfl
  · rw [e1]
    have e2 := on_power_data_active_skip
      ({ s with
          power_last_update := some n1
          counter := 0
          previous_power_values := push_power_value s.previous_power_values v1
          previous_color_value := some c })
      n2 v2 c hpow hb1 h2 rfl
    rw [e2]
    have hb2 : push_power_value
        (push_power_value s.previous_power_values v1) v2 ≠ [] := by
      simp [push_power_value]
    have hne3 : some c' ≠ some c := fun h => hcc (Option.some.inj h).symm
    exact on_power_data_active_emit _ n3 v3 c' hpow hb2 h3 hne3

/-- Witness for C5: one-element rolling store, readings 1, 1, 2 mapping to
`descA`, `descA`, `descB`. -/
theorem power_hysteresis_c5_witness :
    c5_state.power = true ∧ c5_state.previous_power_values ≠ [] ∧
    c5_state.previous_color_value ≠ some descA ∧ descA ≠ descB ∧
    (on_power_data 1 1 c5_state =
      ({ c5_state with
          power_last_update := some 1
          counter := 0
          previous_power_values := push_power_value c5_state.previous_power_values 1
          previous_color_value := some descA },
        [⟨descA, false⟩], false) ∧
     on_power_data 2 1 (on_power_data 1 1 c5_state).1 =
      ({ c5_state with
          power_last_update := some 2
          counter := 1
          previous_power_values := push_power_value
            (push_power_value c5_state.previous_power_values 1) 1
          previous_color_value := some descA },
        [], false) ∧
     on_power_data 3 2 (on_power_data 2 1 (on_power_data 1 1 c5_state).1).1 =
      ({ c5_state with
          power_last_update := some 3
          counter := 0
          previous_power_values := push_power_value (push_power_value
            (push_power_value c5_state.previous_power_values 1) 1) 2
          previous_color_value := some descB },
        [⟨descB, false⟩], false)) :=
  ⟨by decide, by decide, by decide, by decide,
    power_hysteresis_c5 c5_state 1 2 3 1 1 2 descA descB (by decide) (by decide)
      (by decide) (by decide) (by decide) (by decide) (by decide)⟩

/-! ## Claim C6: the rolling average -/

theorem foldl_push_replicate (x : ℤ) : ∀ (j : ℕ) (buf : List ℤ), j ≤ buf.length →
    List.foldl push_power_value buf (List.replicate j x) =
      buf.drop j ++ List.replicate j x := by
  intro j
  induction j with
  | zero => intro buf _; simp
  | succ m ih =>
    intro buf hlen
    rw [List.replicate_succ, List.foldl_cons]
    rw [ih (push_power_value buf x)
      (by simp [push_power_value]; omega)]
    rw [push_power_value, List.drop_append_eq_append_drop]
    have hmt : m ≤ buf.tail.length := by
      simp only [List.length_tail]
      omega
    rw [Nat.sub_eq_zero_of_le hmt, List.drop_zero]
    rw [← List.drop_one, List.drop_drop]
    rw [show m + 1 = 1 + m from by omega]
    simp [List.replicate_succ, List.append_assoc]

/-- Claim C6: pushing evicts the oldest element; for a buffer of capacity
`k > 0` initialized to all zeros, a single push of `x ≥ 0` yields
`floor(x / k)`; after `k` identical pushes of `x` the buffer is all-`x` and
the returned average is exactly `x`; in general the returned average of a
buffer of non-negative values is `floor(sum / count)`. -/
theorem rolling_average_c6 (k : ℕ) (x : ℤ) (hk : 0 < k) (hx : 0 ≤ x) :
    (∀ (buf : List ℤ) (v : ℤ), push_power_value buf v = buf.drop 1 ++ [v]) ∧
    rolling_average (push_power_value (List.replicate k (0 : ℤ)) x) =
      ⌊(x : ℚ) / (k : ℚ)⌋ ∧
    List.foldl push_power_value (List.replicate k (0 : ℤ)) (List.replicate k x) =
      List.replicate k x ∧
    rolling_average (List.replicate k x) = x ∧
    (∀ buf : List ℤ, buf ≠ [] → (∀ y ∈ buf, 0 ≤ y) →
      rolling_average buf = ⌊(buf.sum : ℚ) / (buf.length : ℚ)⌋) := by
  obtain ⟨m, rfl⟩ : ∃ m, k = m + 1 := ⟨k - 1, by omega⟩
  refine ⟨fun buf v => by simp [push_power_value, List.drop_one], ?_, ?_, ?_, ?_⟩
  · have hbuf : push_power_value (List.replicate (m + 1) (0 : ℤ)) x =
        List.replicate m 0 ++ [x] := by
      simp [push_power_value, List.replicate_succ]
    rw [hbuf, rolling_average]
    have hsum : (List.replicate m (0 : ℤ) ++ [x]).sum = x := by simp
    have hlen : (List.replicate m (0 : ℤ) ++ [x]).length = m + 1 := by simp
    rw [hsum, hlen, Rat.floor_intCast_div_natCast]
    exact Int.tdiv_eq_ediv hx (by positivity)
  · rw [foldl_push_replicate x (m + 1) _ (by simp)]
    simp
  · rw [rolling_average]
    have hsum : (List.replicate (m + 1) x).sum = ((m + 1 : ℕ) : ℤ) * x := by
      simp [List.sum_replicate, nsmul_eq_mul]
    rw [hsum, List.length_replicate]
    exact Int.mul_tdiv_cancel_left x (by positivity)
  · intro buf hb hnn
    have hs : 0 ≤ buf.sum := List.sum_nonneg hnn
    rw [rolling_average, Rat.floor_intCast_div_natCast]
    exact Int.tdiv_eq_ediv hs (by positivity)

/-- Witness for C6 at `k = 2`, `x = 5`. -/
theorem rolling_average_c6_witness :
    0 < 2 ∧ (0 : ℤ) ≤ 5 ∧
    ((∀ (buf : List ℤ) (v : ℤ), push_power_value buf v = buf.drop 1 ++ [v]) ∧
      rolling_average (push_power_value (List.replicate 2 (0 : ℤ)) 5) =
        ⌊(5 : ℚ) / ((2 : ℕ) : ℚ)⌋ ∧
      List.foldl push_power_value (List.replicate 2 (0 : ℤ)) (List.replicate 2 5) =
        List.replicate 2 5 ∧
      rolling_average (List.replicate 2 (5 : ℤ)) = 5 ∧
      (∀ buf : List ℤ, buf ≠ [] → (∀ y ∈ buf, 0 ≤ y) →
        rolling_average buf = ⌊(buf.sum : ℚ) / (buf.length : ℚ)⌋)) :=
  ⟨by decide, by decide, rolling_average_c6 2 5 (by decide) (by decide)⟩

/-! ## Claim C7: heart-rate hysteresis -/

/-- Counterexample to claim C7 as stated: in HeartRateActive, a reading whose
looked-up color differs from `lastEmittedColor` produces no emission and does
not update `lastEmittedColor` (the claim promises an emission and an
update). -/
theorem hr_hysteresis_c7_cex :
    c7_state.power = false ∧
    dlookup c7_state.colormapping_hr 60 = some descA ∧
    some descA ≠ c7_state.previous_color_value ∧
    (on_hr_data 9 60 c7_state).2.1 = ([] : List Emission) ∧
    (on_hr_data 9 60 c7_state).1.previous_color_value =
      c7_state.previous_color_value := by decide

/-- Claim C7 amended: in state HeartRateActive the handler makes no
hysteresis comparison at all; every reading with a valid color leads to the
call `self.update_led(color=color)` on the `LEDController` instance, which is
not callable (`TypeError`), so no emission ever occurs and `lastEmittedColor`
is neither consulted nor updated; only `hr_last_update` changes. -/
theorem hr_hysteresis_c7_amended (s : MonitorState) (now v : ℤ) (c : Desc)
    (hpow : s.power = false) (hlook : dlookup s.colormapping_hr v = some c) :
    on_hr_data now v s = ({ s with hr_last_update := some now }, [], true) := by
  unfold on_hr_data
  rw [hlook]
  simp [hpow]

/-- Witness for the amended C7. -/
theorem hr_hysteresis_c7_amended_witness :
    c7_state.power = false ∧
    dlookup c7_state.colormapping_hr 60 = some descA ∧
    on_hr_data 9 60 c7_state = ({ c7_state with hr_last_update := some 9 }, [], true) :=
  ⟨by decide, by decide,
    hr_hysteresis_c7_amended c7_state 9 60 descA (by decide) (by decide)⟩

/-! ## Claim C10: frame of the heart-rate handler -/

/-- Claim C10: processing a HeartRate reading never modifies the power
channel's state — the rolling buffer of previous power values, the power
timestamp and the power color mapping are unchanged by every invocation of
the heart-rate handler (as are the heart-rate mapping, the counter, the last
emitted color and the time delay); only the heart-rate timestamp, the
active-channel flag and the emitted output may change. -/
theorem hr_frame_c10 (now v : ℤ) (s : MonitorState) :
    (on_hr_data now v s).1.previous_power_values = s.previous_power_values ∧
    (on_hr_data now v s).1.power_last_update = s.power_last_update ∧
    (on_hr_data now v s).1.colormapping_power = s.colormapping_power ∧
    (on_hr_data now v s).1.colormapping_hr = s.colormapping_hr ∧
    (on_hr_data now v s).1.counter = s.counter ∧
    (on_hr_data now v s).1.previous_color_value = s.previous_color_value ∧
    (on_hr_data now v s).1.time_delay = s.time_delay := by
  unfold on_hr_data
  cases dlookup s.colormapping_hr v with
  | none => simp
  | some c =>
    simp only
    split
    · split
      · simp
      · split <;> simp
    · simp

end TurboLights
